import Mathlib

/-!
# Verification of the tapr batch-testing and statistics engine

Shallow embedding of the concurrent batch-testing and statistics code of
the `tapr` API health checker (Go), covering `internal/request/client.go`,
`internal/stats` (tracker, history, batch summary), `internal/config`
(batch-config validation) and the batch orchestration in `cmd/tapr/main.go`.

Embedding conventions:
* `time.Duration` (an int64 count of nanoseconds) and Go `int` are
  modelled as `Int`; no quantity in any claim approaches the 64-bit
  range, so wraparound is not modelled.
* Go integer division (`/` on integer types truncates toward zero) is
  `Int.tdiv`, not Lean's `/` (which is euclidean on `Int`).
* The `float64` percentile fraction is modelled as an exact rational;
  Go's `int(x)` conversion (truncation toward zero) is `ratTruncToInt`.
  At every point probed by the claims the `float64` product rounds to
  the exact value, so the rational model agrees with the compiled code
  at those points.
* Go `error` values are `Option String` (`none` = nil).
* Wall-clock timestamps (`time.Now()`) are passed in explicitly as `Nat`
  parameters.
* The single HTTP attempt `makeRequest` is I/O; it is abstracted as an
  oracle `Nat → Result` giving the outcome of each successive attempt.
-/

namespace Tapr

/-- One millisecond in nanoseconds (`time.Millisecond`). -/
def millisecond : Int := 1000000

/-- One second in nanoseconds (`time.Second`). -/
def second : Int := 1000000000

/-! ## internal/request/client.go -/

/-- `request.Result`: the outcome of one HTTP request attempt. -/
structure Result where
  URL : String
  StatusCode : Int
  Status : String
  Latency : Int
  Size : Int
  Protocol : String
  Error : Option String
deriving Repr, DecidableEq

/-- The Go zero value of `request.Result` (`var lastResult Result`). -/
def zeroResult : Result := ⟨"", 0, "", 0, 0, "", none⟩

/-- `request.PingOptions`. `Retries` is a Go `int`; it is only ever set to
a non-negative count, modelled as `Nat`. -/
structure PingOptions where
  Method : String
  Timeout : Int
  Retries : Nat
  Headers : List (String × String)
deriving Repr, DecidableEq

/-- The observable behaviour of one `Ping` call: the returned result, the
number of attempts actually made, and the backoff sleeps performed
(in seconds, in order). -/
structure PingOutcome where
  result : Result
  attempts : Nat
  sleeps : List Nat
deriving Repr, DecidableEq

/-- The retry loop of `request.Ping` (client.go lines 52-73).
`attempt` is the loop counter, `remaining` the number of attempts still
allowed (`maxAttempts - attempt`), `lastResult` the accumulator of the
most recent attempt, `sleeps` the backoff sleeps so far (reversed). -/
def pingLoop (attemptFn : Nat → Result) :
    Nat → Nat → Result → List Nat → PingOutcome
  | attempt, 0, lastResult, sleeps => ⟨lastResult, attempt, sleeps.reverse⟩
  | attempt, remaining + 1, _, sleeps =>
    let res := attemptFn attempt
    if res.Error = none then
      -- "If successful, return immediately"
      ⟨res, attempt + 1, sleeps.reverse⟩
    else if 0 < remaining then
      -- not the last attempt: exponential backoff 2^attempt seconds
      pingLoop attemptFn (attempt + 1) remaining res ((2 ^ attempt) :: sleeps)
    else
      pingLoop attemptFn (attempt + 1) remaining res sleeps

/-- `request.Ping`: up to `opts.Retries + 1` attempts with exponential
backoff between failed attempts. -/
def Ping (url : String) (opts : PingOptions) (attemptFn : Nat → Result) :
    PingOutcome :=
  pingLoop attemptFn 0 (opts.Retries + 1) zeroResult []

/-! ## internal/stats/tracker.go -/

/-- `stats.Tracker`: streaming statistics for watch mode. -/
structure Tracker where
  Total : Int
  Successful : Int
  Failed : Int
  Latencies : List Int
  MinLatency : Int
  MaxLatency : Int
deriving Repr, DecidableEq

/-- `stats.NewTracker`. -/
def NewTracker : Tracker := ⟨0, 0, 0, [], 0, 0⟩

/-- `Tracker.Record` (tracker.go lines 87-106). Note the zero sentinel in
the min update: `if t.MinLatency == 0 || latency < t.MinLatency`. -/
def Tracker.Record (t : Tracker) (latency : Int) (success : Bool) : Tracker :=
  let t := { t with Total := t.Total + 1 }
  let t := if success then { t with Successful := t.Successful + 1 }
           else { t with Failed := t.Failed + 1 }
  let t := { t with Latencies := t.Latencies ++ [latency] }
  let t := if t.MinLatency = 0 ∨ latency < t.MinLatency then
             { t with MinLatency := latency }
           else t
  if latency > t.MaxLatency then { t with MaxLatency := latency } else t

/-- `Tracker.AvgLatency`: sum of all latencies divided (Go integer
division) by their count, `0` when empty. -/
def Tracker.AvgLatency (t : Tracker) : Int :=
  if t.Latencies.length = 0 then 0
  else (t.Latencies.foldl (· + ·) 0).tdiv (t.Latencies.length : Int)

/-- Go `int(x)` conversion applied to an exact rational: truncation
toward zero. -/
def ratTruncToInt (q : ℚ) : Int := q.num.tdiv (q.den : Int)

/-- `Tracker.Percentile` (tracker.go lines 124-148). The Go code sorts a
copy of the latencies with `sort.Slice` (any correct comparison sort: the
value at each index of the sorted list is determined by the multiset, so
insertion sort is an equivalent model), computes
`index := int(float64(len(sorted))*p) - 1` and clamps it to the valid
range. -/
def Tracker.Percentile (t : Tracker) (p : ℚ) : Int :=
  if t.Latencies.length = 0 then 0
  else
    let sorted := List.insertionSort (· ≤ ·) t.Latencies
    let index : Int := ratTruncToInt ((sorted.length : ℚ) * p) - 1
    let index := if index < 0 then 0 else index
    let index := if index ≥ (sorted.length : Int) then (sorted.length : Int) - 1
                 else index
    sorted.getD index.toNat 0

/-! ## internal/stats/history.go -/

/-- `stats.HistoryEntry`. The timestamp is the `Nat` instant at which
`Add` was called. -/
structure HistoryEntry where
  Timestamp : Nat
  Result : Result
deriving Repr, DecidableEq

/-- `stats.History`: rolling window of recent results. `maxSize` is a Go
`int`, only ever constructed non-negative, modelled as `Nat`. -/
structure History where
  entries : List HistoryEntry
  maxSize : Nat
deriving Repr, DecidableEq

/-- `stats.NewHistory`. -/
def NewHistory (maxSize : Nat) : History := ⟨[], maxSize⟩

/-- `History.Add` (history.go lines 31-43): append, then drop the first
(oldest) entry if the length now exceeds `maxSize`. `now` models
`time.Now()`. -/
def History.Add (h : History) (now : Nat) (result : Result) : History :=
  let entries := h.entries ++ [⟨now, result⟩]
  if entries.length > h.maxSize then { h with entries := entries.drop 1 }
  else { h with entries := entries }

/-- `History.GetRecent` (history.go lines 46-54): the last
`min n size` entries, in stored (oldest-first) order. `n` is a Go `int`,
used only with non-negative arguments, modelled as `Nat`. -/
def History.GetRecent (h : History) (n : Nat) : List HistoryEntry :=
  let n := if n > h.entries.length then h.entries.length else n
  h.entries.drop (h.entries.length - n)

/-- `History.Size`. -/
def History.Size (h : History) : Nat := h.entries.length

/-! ## internal/stats (batch summary, unnamed source part_001) -/

/-- `stats.BatchResult`. -/
structure BatchResult where
  Name : String
  URL : String
  Method : String
  Result : Result
  ExpectedStatus : Int
  Success : Bool
  Message : String
deriving Repr, DecidableEq

/-- `stats.BatchSummary`. -/
structure BatchSummary where
  Total : Int
  Successful : Int
  Failed : Int
  Slow : Int
  TotalTime : Int
  AvgLatency : Int
  Results : List BatchResult
deriving Repr, DecidableEq

/-- `stats.NewBatchSummary`. -/
def NewBatchSummary : BatchSummary := ⟨0, 0, 0, 0, 0, 0, []⟩

/-- `BatchSummary.AddResult` (part_001 lines 39-58). The average update
divides by the already-incremented `Total` (all results, failed ones
included), while the numerator accumulates only error-free latencies. -/
def BatchSummary.AddResult (bs : BatchSummary) (result : BatchResult) :
    BatchSummary :=
  let bs := { bs with Results := bs.Results ++ [result], Total := bs.Total + 1 }
  let bs := if result.Success then { bs with Successful := bs.Successful + 1 }
            else { bs with Failed := bs.Failed + 1 }
  let bs := if result.Result.Error = none ∧
               result.Result.Latency > 500 * millisecond then
              { bs with Slow := bs.Slow + 1 }
            else bs
  if result.Result.Error = none then
    { bs with AvgLatency :=
        (bs.AvgLatency * (bs.Total - 1) + result.Result.Latency).tdiv bs.Total }
  else bs

/-! ## internal/config (batch configuration) -/

/-- `config.Endpoint`. -/
structure Endpoint where
  Name : String
  URL : String
  Method : String
  Headers : List (String × String)
  Body : String
  ExpectedStatus : Int
  Timeout : Int
deriving Repr, DecidableEq

/-- `config.BatchConfig`. -/
structure BatchConfig where
  Endpoints : List Endpoint
  Concurrency : Int
  Timeout : Int
deriving Repr, DecidableEq

/-- The validation and defaulting phase of `config.LoadBatchConfig`
(headers.go lines 167-202), applied to the already-parsed configuration
(file reading and YAML decoding are I/O, out of scope). Go wraps the
endpoint name of the no-URL message in single quotes; the quotes are
elided here. Note that `Concurrency` is only compared against `0`:
negative values pass validation unchanged. -/
def validateBatchConfig (config : BatchConfig) : Except String BatchConfig := do
  if config.Endpoints.length = 0 then
    throw "no endpoints defined in batch config"
  let endpoints ← config.Endpoints.mapM (fun ep => do
    let ep := if ep.Method = "" then { ep with Method := "GET" } else ep
    let ep := if ep.ExpectedStatus = 0 then { ep with ExpectedStatus := 200 }
              else ep
    if ep.URL = "" then
      throw s!"endpoint {ep.Name} has no URL"
    pure ep)
  let config := { config with Endpoints := endpoints }
  let config := if config.Concurrency = 0 then { config with Concurrency := 5 }
                else config
  let config := if config.Timeout = 0 then { config with Timeout := 10 * second }
                else config
  pure config

/-! ## cmd/tapr/main.go (batch path) -/

/-- The `PingOptions` built by `testEndpoint` (main.go lines 941-953):
endpoint timeout defaulted to the batch timeout, and always
`Retries: 0` — batch mode never retries. -/
def testEndpointOpts (endpoint : Endpoint) (defaultTimeout : Int) :
    PingOptions :=
  let timeout := if endpoint.Timeout = 0 then defaultTimeout
                 else endpoint.Timeout
  { Method := endpoint.Method.toUpper, Timeout := timeout, Retries := 0,
    Headers := endpoint.Headers }

/-- `testEndpoint` (main.go lines 940-977). `attemptFn` is the oracle for
the underlying HTTP attempts. -/
def testEndpoint (endpoint : Endpoint) (defaultTimeout : Int)
    (attemptFn : Nat → Result) : BatchResult :=
  let opts := testEndpointOpts endpoint defaultTimeout
  let result := (Ping endpoint.URL opts attemptFn).result
  let success := result.Error == none &&
                 result.StatusCode == endpoint.ExpectedStatus
  let message :=
    match result.Error with
    | some e => s!"Error: {e}"
    | none =>
      if result.StatusCode ≠ endpoint.ExpectedStatus then
        let expCode := endpoint.ExpectedStatus
        let gotCode := result.StatusCode
        s!"Expected {expCode}, got {gotCode}"
      else ""
  { Name := endpoint.Name, URL := endpoint.URL, Method := endpoint.Method,
    Result := result, ExpectedStatus := endpoint.ExpectedStatus,
    Success := success, Message := message }

/-- The sequential collector loop of `runBatchTests` (main.go lines
907-926): the single consumer of the results channel folds each arriving
result into the summary. -/
def collectResults (results : List BatchResult) : BatchSummary :=
  results.foldl BatchSummary.AddResult NewBatchSummary

/-- `runBatchTests` (main.go lines 831-937) in a run where neither
fail-fast nor the global deadline triggers: every endpoint is probed
exactly once and contributes exactly one result. Arrival order is a race;
theorems therefore quantify over permutations of this canonical order.
`probes ep` is the attempt oracle for endpoint `ep`. -/
def runBatchTestsModel (config : BatchConfig)
    (probes : Endpoint → Nat → Result) : BatchSummary :=
  collectResults
    (config.Endpoints.map (fun ep => testEndpoint ep config.Timeout (probes ep)))

/-- Outcome of the `runBatch` command path: either the process exits with
a configuration-error code before any probing, or a batch run completes
with a summary. -/
inductive RunOutcome where
  | exitConfigError (code : Int) (msg : String)
  | completed (summary : BatchSummary)
deriving Repr, DecidableEq

/-- `ExitError` (main.go line 69): exit code for configuration errors. -/
def ExitError : Int := 2

/-- `runBatch` (main.go lines 792-828): load/validate the config (exit
code 2 on error, before any probing), apply the `--concurrency` flag
override when positive, then run the batch. -/
def runBatchModel (parsed : BatchConfig) (flagConcurrency : Int)
    (probes : Endpoint → Nat → Result) : RunOutcome :=
  match validateBatchConfig parsed with
  | .error msg => .exitConfigError ExitError msg
  | .ok cfg =>
    let cfg := if flagConcurrency > 0 then { cfg with Concurrency := flagConcurrency }
               else cfg
    .completed (runBatchTestsModel cfg probes)

/-- Whether the run ended in a pre-probing configuration error. -/
def RunOutcome.isConfigError : RunOutcome → Bool
  | .exitConfigError _ _ => true
  | .completed _ => false

/-- How many `BatchResult`s the run produced. -/
def RunOutcome.resultsProduced : RunOutcome → Nat
  | .exitConfigError _ _ => 0
  | .completed s => s.Results.length

/-! ## Semaphore admission gate (main.go lines 842-898)

Each endpoint gets one worker goroutine. A worker that is not stopped
early sends on the buffered channel `semaphore` (capacity
`Concurrency`) — a send that can only complete while fewer than
`Concurrency` slots are occupied — runs its probe, and releases the slot
when it finishes. The transition system below models exactly this
protocol: a worker is `waiting` before the gate, `running` while it
holds a slot (probe in flight), and `finished` after releasing the slot
(or after returning early on the stop/deadline path without probing). -/

/-- Phase of one worker goroutine. -/
inductive Phase where
  | waiting
  | running
  | finished
deriving Repr, DecidableEq

/-- Number of workers currently past the admission gate and not yet
finished (= occupied semaphore slots). -/
def runningCount (ps : List Phase) : Nat := ps.countP (· == Phase.running)

/-- One scheduler step of the orchestrator with concurrency `c`:
`acquire` models a send on the buffered semaphore channel (enabled only
while fewer than `c` slots are held), `finish` models probe completion
plus the deferred release, `skip` models a worker returning early via the
stop/deadline select without probing. -/
inductive OrchStep (c : Nat) : List Phase → List Phase → Prop
  | acquire (l r : List Phase) :
      runningCount l + runningCount r < c →
      OrchStep c (l ++ Phase.waiting :: r) (l ++ Phase.running :: r)
  | finish (l r : List Phase) :
      OrchStep c (l ++ Phase.running :: r) (l ++ Phase.finished :: r)
  | skip (l r : List Phase) :
      OrchStep c (l ++ Phase.waiting :: r) (l ++ Phase.finished :: r)

/-- States reachable by interleaving worker steps, starting from `n`
launched workers none of which has acquired the gate. -/
def OrchReachable (c n : Nat) (s : List Phase) : Prop :=
  Relation.ReflTransGen (OrchStep c) (List.replicate n Phase.waiting) s

/-! ## Fixtures and derived folds used by the theorems -/

/-- Fold a whole sequence of `(latency, success)` observations into a
fresh tracker, in order. -/
def recordSeq (pairs : List (Int × Bool)) : Tracker :=
  pairs.foldl (fun t lp => t.Record lp.1 lp.2) NewTracker

/-- The watch-mode tracker after recording latencies of exactly
`1ms, 2ms, …, 100ms` (all successful). -/
def trackerHundred : Tracker :=
  recordSeq ((List.range 100).map (fun i => (((i : Int) + 1) * millisecond, true)))

/-- Fold a sequence of `(timestamp, result)` pairs into a history. -/
def addAll (h : History) (items : List (Nat × Result)) : History :=
  items.foldl (fun h it => h.Add it.1 it.2) h

/-- The last `c` elements of a list (all of it when it is shorter). -/
def lastN (c : Nat) (L : List α) : List α := L.drop (L.length - c)

/-- A probe result distinguishable by its status code. -/
def probeResultWithStatus (code : Int) : Result :=
  { zeroResult with
      URL := "https://example.com"
      StatusCode := code
      Latency := 100 * millisecond }

/-- A successful (error-free, expected-status) batch result with the
given latency. -/
def succResult (lat : Int) : BatchResult :=
  { Name := "ok", URL := "http://a.local", Method := "GET",
    Result := { zeroResult with
                  StatusCode := 200
                  Latency := lat },
    ExpectedStatus := 200, Success := true, Message := "" }

/-- A failed batch result carrying a transport error. -/
def failResult : BatchResult :=
  { Name := "down", URL := "http://b.local", Method := "GET",
    Result := { zeroResult with
                  Latency := 30 * millisecond
                  Error := some "connection refused" },
    ExpectedStatus := 200, Success := false,
    Message := "Error: connection refused" }

/-- A status-mismatch result (no transport error) that took 600ms:
unsuccessful, yet slow-countable. -/
def mismatchSlowResult : BatchResult :=
  { Name := "mismatch", URL := "http://c.local", Method := "GET",
    Result := { zeroResult with
                  StatusCode := 500
                  Latency := 600 * millisecond },
    ExpectedStatus := 200, Success := false, Message := "Expected 200, got 500" }

/-- An errored result whose measured latency (a 10s timeout) exceeds the
slow threshold. -/
def errorSlowResult : BatchResult :=
  { Name := "timeout", URL := "http://d.local", Method := "GET",
    Result := { zeroResult with
                  Latency := 10 * second
                  Error := some "context deadline exceeded" },
    ExpectedStatus := 200, Success := false,
    Message := "Error: context deadline exceeded" }

/-- An endpoint specification for the batch fixtures. -/
def c4Endpoint : Endpoint :=
  ⟨"svc", "http://svc.local/health", "GET", [], "", 200, 0⟩

/-- A parsed batch configuration carrying the invalid concurrency value
`0` and one endpoint. -/
def c4ZeroConcurrencyConfig : BatchConfig := ⟨[c4Endpoint], 0, second⟩

/-- A parsed batch configuration carrying the invalid concurrency value
`-3` and one endpoint. -/
def c4NegativeConcurrencyConfig : BatchConfig := ⟨[c4Endpoint], -3, second⟩

/-- A probe oracle that always answers 200 OK in 20ms. -/
def c4Probe : Endpoint → Nat → Result := fun _ _ =>
  { zeroResult with
      URL := "http://svc.local/health"
      StatusCode := 200
      Status := "200 OK"
      Latency := 20 * millisecond }

/-- The five results added in the capacity-3 eviction scenario:
timestamps `0..4`, status codes `201..205`. -/
def fiveItems : List (Nat × Result) :=
  (List.range 5).map (fun i => (i, probeResultWithStatus (201 + (i : Int))))

/-! ## Helper lemmas -/

/-- Dropping the head of `L.drop k ++ [e]` is dropping `k + 1` of
`L ++ [e]`. -/
theorem drop_append_singleton_drop_one (L : List α) (e : α) (k : Nat) :
    (L.drop k ++ [e]).drop 1 = (L ++ [e]).drop (k + 1) := by
  rcases Nat.lt_or_ge k L.length with hk | hk
  · rw [List.drop_append_of_le_length (by simp [List.length_drop]; omega),
      List.drop_append_of_le_length (by omega), List.drop_drop]
  · have h1 : L.drop k = [] := List.drop_eq_nil_of_le hk
    have h2 : (L ++ [e]).drop (k + 1) = [] :=
      List.drop_eq_nil_of_le (by simp; omega)
    simp [h1, h2]

/-- `History.Add` on a history whose entries are the last `maxSize`
elements of a log `L` yields the last `maxSize` elements of `L ++ [e]`. -/
theorem Add_entries_lastN (h : History) (L : List HistoryEntry) (now : Nat)
    (r : Result) (hE : h.entries = lastN h.maxSize L) :
    (h.Add now r).entries = lastN h.maxSize (L ++ [⟨now, r⟩]) := by
  have hlen : h.entries.length = L.length - (L.length - h.maxSize) := by
    rw [hE, lastN]; exact List.length_drop _ _
  simp only [History.Add]
  split
  · rename_i hev
    simp only [List.length_append, List.length_singleton] at hev
    -- eviction: h.entries.length + 1 > maxSize, hence maxSize ≤ L.length
    have hge : h.maxSize ≤ L.length := by omega
    show (h.entries ++ [(⟨now, r⟩ : HistoryEntry)]).drop 1 = _
    rw [hE, lastN, drop_append_singleton_drop_one, lastN]
    have hidx : L.length - h.maxSize + 1
        = (L ++ [(⟨now, r⟩ : HistoryEntry)]).length - h.maxSize := by
      rw [List.length_append, List.length_singleton]; omega
    rw [hidx]
  · rename_i hev
    simp only [List.length_append, List.length_singleton] at hev
    -- no eviction: h.entries.length + 1 ≤ maxSize, hence L.length < maxSize
    have hlt : L.length < h.maxSize := by omega
    show h.entries ++ [(⟨now, r⟩ : HistoryEntry)] = _
    rw [hE, lastN, lastN]
    have h1 : L.length - h.maxSize = 0 := by omega
    have h2 : (L ++ [(⟨now, r⟩ : HistoryEntry)]).length - h.maxSize = 0 := by
      rw [List.length_append, List.length_singleton]; omega
    rw [h1, h2]
    simp

/-- `History.Add` never changes the capacity. -/
theorem Add_maxSize (h : History) (now : Nat) (r : Result) :
    (h.Add now r).maxSize = h.maxSize := by
  simp only [History.Add]; split <;> rfl

/-- Folding any sequence of adds keeps the entries equal to the last
`maxSize` elements of the full append log. -/
theorem addAll_entries_general (items : List (Nat × Result)) :
    ∀ (h : History) (L : List HistoryEntry),
      h.entries = lastN h.maxSize L →
      (addAll h items).entries
          = lastN h.maxSize
              (L ++ items.map (fun it => (⟨it.1, it.2⟩ : HistoryEntry))) ∧
      (addAll h items).maxSize = h.maxSize := by
  induction items with
  | nil => intro h L hE; simpa [addAll] using hE
  | cons it its ih =>
    intro h L hE
    have step := Add_entries_lastN h L it.1 it.2 hE
    have hms := Add_maxSize h it.1 it.2
    have := ih (h.Add it.1 it.2) (L ++ [⟨it.1, it.2⟩]) (by rw [step, hms])
    rw [hms] at this
    simpa [addAll, List.foldl_cons, List.append_assoc] using this

/-- C7: a history of capacity `c` always holds the last `min c n` of the
`n` entries added, in order (hence at most `c` entries, strict FIFO
eviction of the oldest); `GetRecent n` returns the last `min n size`
entries oldest-first; and concretely, after adding 5 entries to a
capacity-3 history exactly the last 3 remain, the entry at index 0 being
the 3rd-added one. -/
theorem claim_C7_theorem :
    (∀ (c : Nat) (items : List (Nat × Result)),
      (addAll (NewHistory c) items).entries
          = lastN c (items.map (fun it => (⟨it.1, it.2⟩ : HistoryEntry))) ∧
      (addAll (NewHistory c) items).Size ≤ c) ∧
    (∀ (h : History) (n : Nat),
      h.GetRecent n = lastN (min n h.Size) h.entries ∧
      (h.GetRecent n).length = min n h.Size) ∧
    (addAll (NewHistory 3) fiveItems).entries
        = [⟨2, probeResultWithStatus 203⟩, ⟨3, probeResultWithStatus 204⟩,
           ⟨4, probeResultWithStatus 205⟩] ∧
    (addAll (NewHistory 3) fiveItems).Size = 3 := by
  refine ⟨fun c items => ?_, fun h n => ?_, by decide, by decide⟩
  · have h := addAll_entries_general items (NewHistory c) []
      (by simp [NewHistory, lastN])
    have hms : (NewHistory c).maxSize = c := rfl
    rw [hms, List.nil_append] at h
    refine ⟨h.1, ?_⟩
    rw [History.Size, h.1, lastN, List.length_drop]
    omega
  · constructor
    · rw [History.GetRecent, lastN, History.Size]
      congr 1
      split <;> omega
    · rw [History.GetRecent, List.length_drop, History.Size]
      split <;> omega

/-- Field-level characterization of `BatchSummary.AddResult`. -/
theorem AddResult_fields (bs : BatchSummary) (r : BatchResult) :
    (bs.AddResult r).Total = bs.Total + 1 ∧
    (bs.AddResult r).Successful = bs.Successful + (if r.Success then 1 else 0) ∧
    (bs.AddResult r).Failed = bs.Failed + (if r.Success then 0 else 1) ∧
    (bs.AddResult r).Slow = bs.Slow +
      (if r.Result.Error = none ∧ r.Result.Latency > 500 * millisecond
       then 1 else 0) ∧
    (bs.AddResult r).Results = bs.Results ++ [r] := by
  simp only [BatchSummary.AddResult]
  split <;> split <;> split <;> simp

/-- C1 (counterexample): after adding a successful 100ms result, a failed
result, then a successful 200ms result, the running average is
`133333333ns`, not the `150ms` the claim asserts for the successful
addition that follows the failure — the incremental mean divides by
`Total`, which counts the failed result. -/
theorem claim_C1_counterexample :
    (collectResults [succResult (100 * millisecond), failResult,
        succResult (200 * millisecond)]).AvgLatency = 133333333 ∧
    (133333333 : Int) ≠ 150 * millisecond := by decide

/-- C1 (amended): successful latencies `[100ms, 200ms, 300ms]` alone give
running averages `100ms, 150ms, 200ms`; a failed result leaves the
average unchanged at its own addition while incrementing `Total` and
`Failed`; but the successful additions that follow a failure divide by
the full `Total` (failed results included), giving `133333333ns` and
`174999999ns` instead of `150ms` and `200ms`. -/
theorem claim_C1_theorem :
    (collectResults [succResult (100 * millisecond)]).AvgLatency
        = 100 * millisecond ∧
    (collectResults [succResult (100 * millisecond),
        succResult (200 * millisecond)]).AvgLatency = 150 * millisecond ∧
    (collectResults [succResult (100 * millisecond),
        succResult (200 * millisecond),
        succResult (300 * millisecond)]).AvgLatency = 200 * millisecond ∧
    (collectResults [succResult (100 * millisecond), failResult]).AvgLatency
        = 100 * millisecond ∧
    (collectResults [succResult (100 * millisecond), failResult]).Total = 2 ∧
    (collectResults [succResult (100 * millisecond), failResult]).Failed = 1 ∧
    (collectResults [succResult (100 * millisecond), failResult,
        succResult (200 * millisecond)]).AvgLatency = 133333333 ∧
    (collectResults [succResult (100 * millisecond), failResult,
        succResult (200 * millisecond),
        succResult (300 * millisecond)]).AvgLatency = 174999999 := by
  decide

/-- C10: `AddResult` increments `Slow` exactly when the result has a nil
error and latency strictly above 500ms — including status-mismatch
results whose `Success` is false — and a result carrying an error never
counts as slow, whatever its latency. -/
theorem claim_C10_theorem :
    (∀ (bs : BatchSummary) (r : BatchResult),
      (bs.AddResult r).Slow = bs.Slow +
        (if r.Result.Error = none ∧ r.Result.Latency > 500 * millisecond
         then 1 else 0)) ∧
    (NewBatchSummary.AddResult mismatchSlowResult).Slow = 1 ∧
    mismatchSlowResult.Success = false ∧
    (NewBatchSummary.AddResult errorSlowResult).Slow = 0 ∧
    errorSlowResult.Result.Latency > 500 * millisecond := by
  refine ⟨fun bs r => (AddResult_fields bs r).2.2.2.1, by decide, by decide,
    by decide, by decide⟩

/-- Field-level characterization of `Tracker.Record`. -/
theorem Record_fields (t : Tracker) (lat : Int) (su : Bool) :
    (t.Record lat su).MinLatency =
      (if t.MinLatency = 0 ∨ lat < t.MinLatency then lat else t.MinLatency) ∧
    (t.Record lat su).MaxLatency =
      (if lat > t.MaxLatency then lat else t.MaxLatency) ∧
    (t.Record lat su).Latencies = t.Latencies ++ [lat] ∧
    (t.Record lat su).Total = t.Total + 1 := by
  simp only [Tracker.Record]
  split <;> split <;> split <;> simp

/-- `MinLatency`/`MaxLatency` after folding a batch of strictly positive
recordings over a tracker whose min is already positive. -/
theorem foldl_Record_minmax (pairs : List (Int × Bool)) :
    ∀ t : Tracker, 0 < t.MinLatency → 0 ≤ t.MaxLatency →
      (∀ p ∈ pairs, 0 < p.1) →
      (pairs.foldl (fun t lp => t.Record lp.1 lp.2) t).MinLatency
          = pairs.foldl (fun m p => min m p.1) t.MinLatency ∧
      (pairs.foldl (fun t lp => t.Record lp.1 lp.2) t).MaxLatency
          = pairs.foldl (fun m p => max m p.1) t.MaxLatency := by
  induction pairs with
  | nil => intro t _ _ _; simp
  | cons p ps ih =>
    intro t hmin hmax hpos
    have hp : 0 < p.1 := hpos p (List.mem_cons_self p ps)
    obtain ⟨h1, h2, -, -⟩ := Record_fields t p.1 p.2
    have hmin' : (t.Record p.1 p.2).MinLatency = min t.MinLatency p.1 := by
      rw [h1]; split <;> omega
    have hmax' : (t.Record p.1 p.2).MaxLatency = max t.MaxLatency p.1 := by
      rw [h2]; split <;> omega
    have := ih (t.Record p.1 p.2) (by omega) (by omega)
      (fun q hq => hpos q (List.mem_cons_of_mem p hq))
    simpa [List.foldl_cons, hmin', hmax'] using this

/-- C5 (counterexample): recording a latency of exactly `0` first and
then `5ms` ends with `MinLatency = 5ms`, not the `0` the claim requires:
the code treats `MinLatency == 0` as "unset". -/
theorem claim_C5_counterexample :
    ((NewTracker.Record 0 true).Record (5 * millisecond) true).MinLatency
        = 5 * millisecond ∧
    (5 * millisecond : Int) ≠ 0 := by decide

/-- C5 (amended): for a nonempty sequence of recordings whose latencies
are all strictly positive, the first recorded latency seeds both min and
max and thereafter `MinLatency`/`MaxLatency` are the exact minimum and
maximum of all recorded latencies. A recorded latency of exactly `0` is
not preserved as the floor: the `MinLatency == 0` sentinel treats it as
"unset", so the next positive latency overwrites it. -/
theorem claim_C5_theorem (lat : Int) (success : Bool)
    (pairs : List (Int × Bool)) (hlat : 0 < lat)
    (hpos : ∀ p ∈ pairs, 0 < p.1) :
    (recordSeq ((lat, success) :: pairs)).MinLatency
        = pairs.foldl (fun m p => min m p.1) lat ∧
    (recordSeq ((lat, success) :: pairs)).MaxLatency
        = pairs.foldl (fun m p => max m p.1) lat := by
  obtain ⟨h1, h2, -, -⟩ := Record_fields NewTracker lat success
  have hseed1 : (NewTracker.Record lat success).MinLatency = lat := by
    rw [h1]; simp [NewTracker]
  have hseed2 : (NewTracker.Record lat success).MaxLatency = lat := by
    rw [h2]; simp [NewTracker]; omega
  have := foldl_Record_minmax pairs (NewTracker.Record lat success)
    (by omega) (by omega) hpos
  rw [hseed1, hseed2] at this
  simpa [recordSeq, List.foldl_cons] using this

/-- C5 (witness): recording `5ms, 3ms, 7ms` gives min `3ms`, max `7ms`. -/
theorem claim_C5_witness :
    (recordSeq [(5 * millisecond, true), (3 * millisecond, false),
        (7 * millisecond, true)]).MinLatency = 3 * millisecond ∧
    (recordSeq [(5 * millisecond, true), (3 * millisecond, false),
        (7 * millisecond, true)]).MaxLatency = 7 * millisecond := by
  have h := claim_C5_theorem (5 * millisecond) true
    [(3 * millisecond, false), (7 * millisecond, true)] (by decide)
    (by decide)
  exact ⟨h.1.trans (by decide), h.2.trans (by decide)⟩

/-- Folding results into a summary adds their count to `Total`. -/
theorem foldl_AddResult_Total (rs : List BatchResult) :
    ∀ s : BatchSummary,
      (rs.foldl BatchSummary.AddResult s).Total = s.Total + rs.length := by
  induction rs with
  | nil => intro s; simp
  | cons r rs ih =>
    intro s
    rw [List.foldl_cons, ih, (AddResult_fields s r).1, List.length_cons]
    push_cast
    ring

/-- Folding results into a summary appends them to `Results`. -/
theorem foldl_AddResult_Results (rs : List BatchResult) :
    ∀ s : BatchSummary,
      (rs.foldl BatchSummary.AddResult s).Results = s.Results ++ rs := by
  induction rs with
  | nil => intro s; simp
  | cons r rs ih =>
    intro s
    rw [List.foldl_cons, ih, (AddResult_fields s r).2.2.2.2, List.append_assoc]
    rfl

/-- `Total = Successful + Failed` and `Slow ≤ Total` are preserved by any
fold of `AddResult`. -/
theorem foldl_AddResult_inv (rs : List BatchResult) :
    ∀ s : BatchSummary, s.Total = s.Successful + s.Failed →
      s.Slow ≤ s.Total →
      (rs.foldl BatchSummary.AddResult s).Total
          = (rs.foldl BatchSummary.AddResult s).Successful
            + (rs.foldl BatchSummary.AddResult s).Failed ∧
      (rs.foldl BatchSummary.AddResult s).Slow
          ≤ (rs.foldl BatchSummary.AddResult s).Total := by
  induction rs with
  | nil => intro s h1 h2; simpa using ⟨h1, h2⟩
  | cons r rs ih =>
    intro s h1 h2
    obtain ⟨hT, hS, hF, hSl, -⟩ := AddResult_fields s r
    rw [List.foldl_cons]
    refine ih (s.AddResult r) ?_ ?_
    · rw [hT, hS, hF]; split <;> omega
    · rw [hT, hSl]; split <;> omega

/-- C2: after any sequence of `AddResult` calls the invariants
`Total = Successful + Failed`, `Slow ≤ Total` and
`len(Results) = Total` hold; and a batch run that collects one arrival
per endpoint (in any arrival order) has `Total = N`,
`Successful + Failed = N` and `len(Results) = N` for `N` endpoints. -/
theorem claim_C2_theorem :
    (∀ rs : List BatchResult,
      (collectResults rs).Total
          = (collectResults rs).Successful + (collectResults rs).Failed ∧
      (collectResults rs).Slow ≤ (collectResults rs).Total ∧
      ((collectResults rs).Results.length : Int) = (collectResults rs).Total ∧
      (collectResults rs).Total = rs.length) ∧
    (∀ (cfg : BatchConfig) (probes : Endpoint → Nat → Result)
        (arrivals : List BatchResult),
      arrivals.Perm
        (cfg.Endpoints.map (fun ep => testEndpoint ep cfg.Timeout (probes ep))) →
      (collectResults arrivals).Total = cfg.Endpoints.length ∧
      (collectResults arrivals).Successful + (collectResults arrivals).Failed
          = cfg.Endpoints.length ∧
      (collectResults arrivals).Results.length = cfg.Endpoints.length) := by
  have main : ∀ rs : List BatchResult,
      (collectResults rs).Total
          = (collectResults rs).Successful + (collectResults rs).Failed ∧
      (collectResults rs).Slow ≤ (collectResults rs).Total ∧
      ((collectResults rs).Results.length : Int) = (collectResults rs).Total ∧
      (collectResults rs).Total = rs.length := by
    intro rs
    have hinv := foldl_AddResult_inv rs NewBatchSummary (by rfl) (by
      show (0 : Int) ≤ 0
      omega)
    have hT := foldl_AddResult_Total rs NewBatchSummary
    have hR := foldl_AddResult_Results rs NewBatchSummary
    refine ⟨hinv.1, hinv.2, ?_, ?_⟩
    · rw [collectResults, hT, hR]
      show ((([] : List BatchResult) ++ rs).length : Int) = 0 + rs.length
      simp
    · rw [collectResults, hT]
      show (0 : Int) + rs.length = rs.length
      omega
  refine ⟨main, ?_⟩
  intro cfg probes arrivals hperm
  have hN : arrivals.length = cfg.Endpoints.length := by
    rw [hperm.length_eq, List.length_map]
  obtain ⟨h1, -, h3, h4⟩ := main arrivals
  refine ⟨by rw [h4, hN], by rw [← h1, h4, hN], ?_⟩
  have := h3.trans h4
  rw [hN] at this
  exact_mod_cast this

/-- C2 (witness): collecting the single arrival of a one-endpoint batch
gives `Total = 1`. -/
theorem claim_C2_witness :
    (collectResults (c4ZeroConcurrencyConfig.Endpoints.map
        (fun ep => testEndpoint ep c4ZeroConcurrencyConfig.Timeout
          (c4Probe ep)))).Total = 1 := by
  have h := (claim_C2_theorem.2 c4ZeroConcurrencyConfig c4Probe _
    (List.Perm.refl _)).1
  simpa using h

/-- With zero retries, `Ping` performs exactly one attempt and returns
its result, with no backoff sleeps. -/
theorem ping_zero_retries (url : String) (opts : PingOptions)
    (f : Nat → Result) (h : opts.Retries = 0) :
    Ping url opts f = ⟨f 0, 1, []⟩ := by
  unfold Ping
  rw [h]
  by_cases h0 : (f 0).Error = none
  · simp [pingLoop, h0]
  · simp [pingLoop, h0]

/-- C3: a batch test is successful iff the probe result has no error and
its status equals the expected status; a status mismatch without error
yields `Success = false` and the message `Expected X, got Y`; a
transport error yields `Success = false` with the error surfaced and an
error message instead of a status comparison. -/
theorem claim_C3_theorem (ep : Endpoint) (dt : Int) (f : Nat → Result) :
    ((testEndpoint ep dt f).Success = true ↔
      (f 0).Error = none ∧ (f 0).StatusCode = ep.ExpectedStatus) ∧
    ((f 0).Error = none → (f 0).StatusCode ≠ ep.ExpectedStatus →
      (testEndpoint ep dt f).Success = false ∧
      (testEndpoint ep dt f).Message =
        s!"Expected {ep.ExpectedStatus}, got {(f 0).StatusCode}") ∧
    (∀ e, (f 0).Error = some e →
      (testEndpoint ep dt f).Success = false ∧
      (testEndpoint ep dt f).Message = s!"Error: {e}" ∧
      (testEndpoint ep dt f).Result.Error = some e) := by
  have hping : Ping ep.URL (testEndpointOpts ep dt) f = ⟨f 0, 1, []⟩ :=
    ping_zero_retries _ _ _ rfl
  refine ⟨?_, ?_, ?_⟩
  · simp [testEndpoint, hping, Bool.and_eq_true, beq_iff_eq]
  · intro h1 h2
    simp [testEndpoint, hping, h1, h2]
  · intro e he
    simp [testEndpoint, hping, he]

/-- C3 (witness): an endpoint expecting 200 probed with a 500 answer is
unsuccessful with the message `Expected 200, got 500`. -/
theorem claim_C3_witness :
    (testEndpoint c4Endpoint second
        (fun _ => probeResultWithStatus 500)).Success = false ∧
    (testEndpoint c4Endpoint second
        (fun _ => probeResultWithStatus 500)).Message
      = "Expected 200, got 500" := by
  have h := (claim_C3_theorem c4Endpoint second
    (fun _ => probeResultWithStatus 500)).2.1 (by decide) (by decide)
  exact ⟨h.1, h.2.trans (by decide)⟩

/-- The retry loop makes at most `remaining` further attempts. -/
theorem pingLoop_attempts_le (f : Nat → Result) :
    ∀ (remaining attempt : Nat) (last : Result) (sleeps : List Nat),
      (pingLoop f attempt remaining last sleeps).attempts
        ≤ attempt + remaining := by
  intro remaining
  induction remaining with
  | zero => intro attempt last sleeps; simp [pingLoop]
  | succ r ih =>
    intro attempt last sleeps
    by_cases h0 : (f attempt).Error = none
    · simp [pingLoop, h0]
    · by_cases hr : 0 < r
      · have := ih (attempt + 1) (f attempt) ((2 ^ attempt) :: sleeps)
        simp only [pingLoop, h0, hr, if_neg, if_pos, if_false, if_true]
        simp [h0, hr]
        omega
      · have := ih (attempt + 1) (f attempt) sleeps
        simp [pingLoop, h0, hr]
        omega

/-- If the first `j` attempts from `attempt` onward fail and attempt
`attempt + j` succeeds within the allowance, the loop returns that
result after `attempt + j + 1` total attempts with backoff sleeps
`2^attempt, …, 2^(attempt+j-1)` seconds. -/
theorem pingLoop_first_success (f : Nat → Result) :
    ∀ (j attempt remaining : Nat) (last : Result) (sleeps : List Nat),
      j < remaining →
      (∀ i, i < j → (f (attempt + i)).Error ≠ none) →
      (f (attempt + j)).Error = none →
      pingLoop f attempt remaining last sleeps =
        ⟨f (attempt + j), attempt + j + 1,
          sleeps.reverse ++ (List.range j).map (fun i => 2 ^ (attempt + i))⟩ := by
  intro j
  induction j with
  | zero =>
    intro attempt remaining last sleeps hlt hfail hsucc
    obtain ⟨r, rfl⟩ : ∃ r, remaining = r + 1 := ⟨remaining - 1, by omega⟩
    simp only [Nat.add_zero] at hsucc
    simp [pingLoop, hsucc]
  | succ j ih =>
    intro attempt remaining last sleeps hlt hfail hsucc
    obtain ⟨r, rfl⟩ : ∃ r, remaining = r + 1 := ⟨remaining - 1, by omega⟩
    have h0 : ¬ (f attempt).Error = none := by
      have := hfail 0 (Nat.succ_pos j)
      simpa using this
    have hr : 0 < r := by omega
    have hstep : pingLoop f attempt (r + 1) last sleeps
        = pingLoop f (attempt + 1) r (f attempt) ((2 ^ attempt) :: sleeps) := by
      simp [pingLoop, h0, hr]
    have hrec := ih (attempt + 1) r (f attempt) ((2 ^ attempt) :: sleeps)
      (by omega)
      (fun i hi => by
        have h := hfail (i + 1) (by omega)
        have harg : attempt + (i + 1) = attempt + 1 + i := by omega
        rwa [harg] at h)
      (by
        have harg : attempt + 1 + j = attempt + (j + 1) := by omega
        rw [harg]
        exact hsucc)
    rw [hstep, hrec]
    have hidx : attempt + 1 + j = attempt + (j + 1) := by omega
    rw [hidx]
    congr 1
    rw [List.reverse_cons, List.append_assoc]
    congr 1
    rw [List.range_succ_eq_map, List.map_cons, List.map_map]
    rw [Nat.add_zero, List.singleton_append]
    congr 1
    refine List.map_congr_left (fun i _ => ?_)
    have : attempt + 1 + i = attempt + (i + 1) := by omega
    simp [Function.comp, this]

/-- C8: `Ping` makes at most `Retries + 1` attempts; if the first `k`
attempts fail and attempt `k` (0-based) succeeds within the allowance,
it returns that result immediately after `k + 1` attempts having slept
`1s, 2s, 4s, …` between the failed attempts; `testEndpoint` always
builds its options with `Retries = 0`, so every batch probe makes
exactly one attempt. -/
theorem claim_C8_theorem :
    (∀ (url : String) (opts : PingOptions) (f : Nat → Result),
      (Ping url opts f).attempts ≤ opts.Retries + 1) ∧
    (∀ (url : String) (opts : PingOptions) (f : Nat → Result) (k : Nat),
      k ≤ opts.Retries → (∀ i, i < k → (f i).Error ≠ none) →
      (f k).Error = none →
      Ping url opts f = ⟨f k, k + 1, (List.range k).map (fun i => 2 ^ i)⟩) ∧
    (∀ (ep : Endpoint) (dt : Int), (testEndpointOpts ep dt).Retries = 0) ∧
    (∀ (url : String) (opts : PingOptions) (f : Nat → Result),
      opts.Retries = 0 → (Ping url opts f).attempts = 1) := by
  refine ⟨?_, ?_, ?_, ?_⟩
  · intro url opts f
    have := pingLoop_attempts_le f (opts.Retries + 1) 0 zeroResult []
    simpa [Ping] using this
  · intro url opts f k hk hfail hsucc
    have := pingLoop_first_success f k 0 (opts.Retries + 1) zeroResult []
      (by omega) (by simpa using hfail) (by simpa using hsucc)
    simpa [Ping] using this
  · intro ep dt
    rfl
  · intro url opts f h
    rw [ping_zero_retries url opts f h]

/-- C8 (witness): with 2 retries allowed, an oracle failing on attempt 0
and succeeding on attempt 1 yields that success after exactly 2 attempts
and a single 1-second backoff sleep. -/
theorem claim_C8_witness :
    Ping "http://w.local" ⟨"GET", 1000000000, 2, []⟩
        (fun n => if n = 0 then
          { zeroResult with Error := some "refused" }
        else { zeroResult with StatusCode := 200 })
      = ⟨{ zeroResult with StatusCode := 200 }, 2, [1]⟩ := by
  have h := claim_C8_theorem.2.1 "http://w.local" ⟨"GET", 1000000000, 2, []⟩
    (fun n => if n = 0 then { zeroResult with Error := some "refused" }
     else { zeroResult with StatusCode := 200 }) 1
    (by decide) (by decide) (by decide)
  exact h.trans (by decide)

/-- A non-negative integer divided by a natural number: Go truncation
and euclidean division agree. -/
theorem tdiv_eq_ediv_nonneg (m : Int) (n : Nat) (h : 0 ≤ m) :
    m.tdiv (n : Int) = m / (n : Int) := by
  obtain ⟨a, rfl⟩ := Int.eq_ofNat_of_zero_le h
  rfl

/-- On non-negative rationals Go's `int(x)` truncation is the floor. -/
theorem ratTrunc_eq_floor (q : ℚ) (hq : 0 ≤ q) : ratTruncToInt q = ⌊q⌋ := by
  rw [ratTruncToInt, Rat.floor_def]
  exact tdiv_eq_ediv_nonneg q.num q.den (Rat.num_nonneg.mpr hq)

/-- Nearest-rank characterization of `Tracker.Percentile` on a nonempty
history with `0 ≤ p`: the value at index `floor(n*p) - 1` clamped to
`[0, n-1]` of the ascending sort. -/
theorem Percentile_nearest_rank (t : Tracker) (p : ℚ) (hne : t.Latencies ≠ [])
    (h0 : 0 ≤ p) :
    t.Percentile p
      = (List.insertionSort (· ≤ ·) t.Latencies).getD
          (Int.toNat (min (max (⌊(t.Latencies.length : ℚ) * p⌋ - 1) 0)
            ((t.Latencies.length : Int) - 1))) 0 := by
  have hn : ¬ t.Latencies.length = 0 := by
    intro h
    exact hne (List.length_eq_zero.mp h)
  have hpos : 1 ≤ t.Latencies.length := Nat.one_le_iff_ne_zero.mpr hn
  have hlen : (List.insertionSort (· ≤ ·) t.Latencies).length
      = t.Latencies.length := List.length_insertionSort (· ≤ ·) t.Latencies
  simp only [Tracker.Percentile, hlen]
  rw [if_neg hn]
  have hfl : ratTruncToInt ((t.Latencies.length : ℚ) * p)
      = ⌊(t.Latencies.length : ℚ) * p⌋ :=
    ratTrunc_eq_floor _ (mul_nonneg (by positivity) h0)
  rw [hfl]
  congr 1
  congr 1
  split_ifs <;> omega

set_option maxRecDepth 100000 in
/-- C6: on a nonempty history, `Percentile p` (for `p ∈ [0,1]`) returns
the ascending-sorted latency at index `floor(n*p) - 1` clamped to
`[0, n-1]`; on the `1ms..100ms` history the probed percentiles are
`P50 = 50ms`, `P95 = 95ms`, `P99 = 99ms`, `P100 = 100ms` (the maximum)
and `P0 = 1ms` (the minimum). -/
theorem claim_C6_theorem :
    (∀ (t : Tracker) (p : ℚ), t.Latencies ≠ [] → 0 ≤ p → p ≤ 1 →
      t.Percentile p
        = (List.insertionSort (· ≤ ·) t.Latencies).getD
            (Int.toNat (min (max (⌊(t.Latencies.length : ℚ) * p⌋ - 1) 0)
              ((t.Latencies.length : Int) - 1))) 0) ∧
    trackerHundred.Percentile (1/2) = 50 * millisecond ∧
    trackerHundred.Percentile (19/20) = 95 * millisecond ∧
    trackerHundred.Percentile (99/100) = 99 * millisecond ∧
    trackerHundred.Percentile 1 = 100 * millisecond ∧
    trackerHundred.Percentile 0 = 1 * millisecond := by
  have hne : trackerHundred.Latencies ≠ [] := by decide
  have hlen : trackerHundred.Latencies.length = 100 := by decide
  refine ⟨fun t p h hp0 hp1 => Percentile_nearest_rank t p h hp0,
    ?_, ?_, ?_, ?_, ?_⟩
  · rw [Percentile_nearest_rank trackerHundred (1/2) hne (by norm_num), hlen]
    have hfl : ⌊(100 : ℚ) * (1/2 : ℚ)⌋ = 50 := by norm_num
    rw [Nat.cast_ofNat, hfl]
    decide
  · rw [Percentile_nearest_rank trackerHundred (19/20) hne (by norm_num), hlen]
    have hfl : ⌊(100 : ℚ) * (19/20 : ℚ)⌋ = 95 := by norm_num
    rw [Nat.cast_ofNat, hfl]
    decide
  · rw [Percentile_nearest_rank trackerHundred (99/100) hne (by norm_num), hlen]
    have hfl : ⌊(100 : ℚ) * (99/100 : ℚ)⌋ = 99 := by norm_num
    rw [Nat.cast_ofNat, hfl]
    decide
  · rw [Percentile_nearest_rank trackerHundred 1 hne (by norm_num), hlen]
    have hfl : ⌊(100 : ℚ) * (1 : ℚ)⌋ = 100 := by norm_num
    rw [Nat.cast_ofNat, hfl]
    decide
  · rw [Percentile_nearest_rank trackerHundred 0 hne (by norm_num), hlen]
    have hfl : ⌊(100 : ℚ) * (0 : ℚ)⌋ = 0 := by norm_num
    rw [Nat.cast_ofNat, hfl]
    decide

set_option maxRecDepth 100000 in
/-- C6 (witness): instance of the nearest-rank characterization on the
`1ms..100ms` history at `p = 1/2`. -/
theorem claim_C6_witness :
    trackerHundred.Latencies ≠ [] ∧
    trackerHundred.Percentile (1/2)
      = (List.insertionSort (· ≤ ·) trackerHundred.Latencies).getD
          (Int.toNat
            (min (max (⌊(trackerHundred.Latencies.length : ℚ) * (1/2)⌋ - 1) 0)
              ((trackerHundred.Latencies.length : Int) - 1))) 0 := by
  refine ⟨by decide, claim_C6_theorem.1 trackerHundred (1/2) (by decide)
    (by norm_num) (by norm_num)⟩

/-- `runningCount` distributes over append. -/
theorem runningCount_append (l r : List Phase) :
    runningCount (l ++ r) = runningCount l + runningCount r := by
  simp [runningCount, List.countP_append]

/-- `runningCount` of a cons, per constructor. -/
theorem runningCount_cons_running (l : List Phase) :
    runningCount (Phase.running :: l) = runningCount l + 1 := by
  simp [runningCount, List.countP_cons]

/-- A waiting worker does not count as running. -/
theorem runningCount_cons_waiting (l : List Phase) :
    runningCount (Phase.waiting :: l) = runningCount l := by
  simp [runningCount, List.countP_cons]

/-- A finished worker does not count as running. -/
theorem runningCount_cons_finished (l : List Phase) :
    runningCount (Phase.finished :: l) = runningCount l := by
  simp [runningCount, List.countP_cons]

/-- No worker is past the gate at launch. -/
theorem runningCount_replicate_waiting (n : Nat) :
    runningCount (List.replicate n Phase.waiting) = 0 := by
  induction n with
  | zero => rfl
  | succ n ih => rw [List.replicate_succ, runningCount_cons_waiting, ih]

/-- C9: in every reachable interleaving of the batch workers under
concurrency `c ≥ 1`, the number of probes simultaneously past the
admission gate and not yet finished never exceeds `c`. -/
theorem claim_C9_theorem (c n : Nat) (hc : 1 ≤ c) (s : List Phase)
    (hs : OrchReachable c n s) : runningCount s ≤ c := by
  induction hs with
  | refl => rw [runningCount_replicate_waiting]; omega
  | tail _ hstep ih =>
    cases hstep with
    | acquire l r hlt =>
      rw [runningCount_append, runningCount_cons_running]
      omega
    | finish l r =>
      rw [runningCount_append, runningCount_cons_running] at ih
      rw [runningCount_append, runningCount_cons_finished]
      omega
    | skip l r =>
      rw [runningCount_append, runningCount_cons_waiting] at ih
      rw [runningCount_append, runningCount_cons_finished]
      omega

/-- C9 (witness): with concurrency 1 and one worker, the state reached
after that worker acquires the gate respects the bound. -/
theorem claim_C9_witness : runningCount [Phase.running] ≤ 1 := by
  have hstep : OrchStep 1 (List.replicate 1 Phase.waiting) [Phase.running] := by
    have h := OrchStep.acquire (c := 1) ([] : List Phase) ([] : List Phase)
      (by decide)
    simpa using h
  exact claim_C9_theorem 1 1 (by omega) [Phase.running]
    (Relation.ReflTransGen.single hstep)

/-- C4 (counterexample): a parsed config with one endpoint and the
invalid concurrency value `0` is not rejected: no configuration error is
reported, the batch runs, and a probe executes producing one
`BatchResult` — contradicting the claim that every concurrency ≤ 0 input
exits with code 2 before any probe. -/
theorem claim_C4_counterexample :
    c4ZeroConcurrencyConfig.Concurrency ≤ 0 ∧
    (runBatchModel c4ZeroConcurrencyConfig 0 c4Probe).isConfigError = false ∧
    (runBatchModel c4ZeroConcurrencyConfig 0 c4Probe).resultsProduced = 1 := by
  refine ⟨by decide, by decide, by decide⟩

/-- C4 (amended): zero endpoints are rejected with exit code 2 before any
probing and produce no `BatchResult`; but concurrency is never
validated: `0` is silently defaulted to `5` and the batch probes run,
and a negative value passes validation unchanged (in Go it then crashes
the semaphore-channel construction with a runtime panic rather than a
reported configuration error). -/
theorem claim_C4_theorem :
    (∀ (cfg : BatchConfig) (flag : Int) (probes : Endpoint → Nat → Result),
      cfg.Endpoints = [] →
      runBatchModel cfg flag probes
          = RunOutcome.exitConfigError 2 "no endpoints defined in batch config" ∧
      (runBatchModel cfg flag probes).resultsProduced = 0) ∧
    validateBatchConfig c4ZeroConcurrencyConfig
        = Except.ok ⟨[c4Endpoint], 5, second⟩ ∧
    (runBatchModel c4ZeroConcurrencyConfig 0 c4Probe).resultsProduced = 1 ∧
    validateBatchConfig c4NegativeConcurrencyConfig
        = Except.ok ⟨[c4Endpoint], -3, second⟩ := by
  refine ⟨?_, by rfl, by decide, by rfl⟩
  intro cfg flag probes h
  obtain ⟨eps, conc, tm⟩ := cfg
  replace h : eps = [] := h
  subst h
  exact ⟨rfl, rfl⟩

/-- C4 (witness): the empty endpoint list exits with configuration-error
code 2. -/
theorem claim_C4_witness :
    runBatchModel ⟨[], 0, 0⟩ 0 c4Probe
        = RunOutcome.exitConfigError 2 "no endpoints defined in batch config" :=
  (claim_C4_theorem.1 ⟨[], 0, 0⟩ 0 c4Probe rfl).1

end Tapr
